import Mathlib

/-!
Shallow embedding of the loss pipeline of `src/models/detectors/ctrnet/loss.py`
and the detector builder `src/models/detectors/e2eyolo/build.py`.

Real-valued tensors are modelled over `ℚ`; the transcendental primitives
`exp` and `log` (used by `torch.sigmoid`, `F.binary_cross_entropy_with_logits`
and `torch.log`) are abstracted as function parameters `rexp rlog : ℚ → ℚ`,
since every claim under verification is about the combinatorial / algebraic
structure of the pipeline, not about properties of `exp`/`log` themselves.

Tensors `[N, C]` become `List (List ℚ)`, `[N, 4]` box tensors become
`List Box`, `[N, 4]` raw-regression tensors become `List Vec4`,
`[N, 2]` anchor tensors become `List Pt`.
-/

namespace CtrNet

/-- An axis-aligned box in `xyxy` format. -/
structure Box where
  x1 : ℚ
  y1 : ℚ
  x2 : ℚ
  y2 : ℚ
deriving DecidableEq, Inhabited

/-- An anchor point (2 coordinates). -/
structure Pt where
  x : ℚ
  y : ℚ
deriving DecidableEq, Inhabited

/-- A raw 4-component regression vector. -/
structure Vec4 where
  t1 : ℚ
  t2 : ℚ
  t3 : ℚ
  t4 : ℚ
deriving DecidableEq, Inhabited

/-- Sum of the four components (models `.sum()` over the last axis). -/
def Vec4.total (v : Vec4) : ℚ := v.t1 + v.t2 + v.t3 + v.t4

/-- Area of an `xyxy` box. -/
def boxArea (b : Box) : ℚ := (b.x2 - b.x1) * (b.y2 - b.y1)

/-- Intersection area of two `xyxy` boxes (clamped at 0). -/
def interArea (a b : Box) : ℚ :=
  max (min a.x2 b.x2 - max a.x1 b.x1) 0 * max (min a.y2 b.y2 - max a.y1 b.y1) 0

/-- Union area of two `xyxy` boxes. -/
def unionArea (a b : Box) : ℚ := boxArea a + boxArea b - interArea a b

/-- Area of the smallest enclosing `xyxy` box of two boxes. -/
def encloseArea (a b : Box) : ℚ :=
  (max a.x2 b.x2 - min a.x1 b.x1) * (max a.y2 b.y2 - min a.y1 b.y1)

/-- Modelled from the spec: `get_ious(..., box_mode="xyxy", iou_type='giou')`
from `utils/box_ops.py` (not included in the sources). The spec's glossary:
"GIoU: Generalized Intersection-over-Union, a box-overlap similarity metric
bounded in [-1,1], used as 1−GIoU loss", i.e. the standard
`IoU − (enclose − union)/enclose`. -/
def giou (a b : Box) : ℚ :=
  interArea a b / unionArea a b - (encloseArea a b - unionArea a b) / encloseArea a b

/-- Model of `torch.sigmoid` over `ℚ`, with the exponential abstracted. -/
def sigmoid (rexp : ℚ → ℚ) (x : ℚ) : ℚ := 1 / (1 + rexp (-x))

/-- Model of `F.binary_cross_entropy_with_logits(x, y, reduction='none')`
for a single element: `-(y·log σ(x) + (1−y)·log(1−σ(x)))`. -/
def bceWithLogits (rexp rlog : ℚ → ℚ) (x y : ℚ) : ℚ :=
  -(y * rlog (sigmoid rexp x) + (1 - y) * rlog (1 - sigmoid rexp x))

/-- `Criterion.loss_classes` (loss.py lines 36-60), the quality focal loss.
`pred_cls : [N, C]`, `label : [N]`, `score : [N]`; returns the `[N, C]`
per-element loss matrix.  The in-place write
`ce_loss[pos, pos_label] = ...` touches each foreground row exactly once,
at its label column, and is embedded as a per-row `List.set`. -/
def lossClasses (rexp rlog : ℚ → ℚ) (beta : ℕ)
    (pred_cls : List (List ℚ)) (label : List ℤ) (score : List ℚ) :
    List (List ℚ) :=
  let bg_class_ind : ℤ := ((pred_cls.headD []).length : ℤ)
  (pred_cls.zip (label.zip score)).map (fun p =>
    let row := p.1
    let lab := p.2.1
    let sc := p.2.2
    let bgRow := row.map (fun x =>
      bceWithLogits rexp rlog x 0 * (sigmoid rexp x) ^ beta)
    if 0 ≤ lab ∧ lab < bg_class_ind then
      bgRow.set lab.toNat
        (bceWithLogits rexp rlog (row.getD lab.toNat 0) sc *
          |sc - sigmoid rexp (row.getD lab.toNat 0)| ^ beta)
    else bgRow)

/-- `Criterion.loss_bboxes` (loss.py lines 62-66): `1 − GIoU`, elementwise
over paired boxes. -/
def lossBboxes (pred_box gt_box : List Box) : List ℚ :=
  (pred_box.zip gt_box).map (fun p => 1 - giou p.1 p.2)

/-- The encoded target of `Criterion.loss_bboxes_aux` for one sample:
center offset `(gt_center − anchor)/stride` and size `log(gt_size/stride)`. -/
def encodeGtBox (rlog : ℚ → ℚ) (g : Box) (anc : Pt) (s : ℚ) : Vec4 :=
  ⟨((g.x1 + g.x2) * (1/2) - anc.x) / s,
   ((g.y1 + g.y2) * (1/2) - anc.y) / s,
   rlog ((g.x2 - g.x1) / s),
   rlog ((g.y2 - g.y1) / s)⟩

/-- `Criterion.loss_bboxes_aux` (loss.py lines 68-79): elementwise L1
(`reduction='none'`) between the raw regression prediction and the encoded
ground-truth target. -/
def lossBboxesAux (rlog : ℚ → ℚ) (pred_reg : List Vec4) (gt_box : List Box)
    (anchors : List Pt) (stride_tensors : List ℚ) : List Vec4 :=
  (pred_reg.zip (gt_box.zip (anchors.zip stride_tensors))).map (fun p =>
    let pr := p.1
    let e := encodeGtBox rlog p.2.1 p.2.2.1 p.2.2.2
    ⟨|pr.t1 - e.t1|, |pr.t2 - e.t2|, |pr.t3 - e.t3|, |pr.t4 - e.t4|⟩)

/-- The per-image result of `AlignedSimOTA.__call__` (matcher.py, an external
collaborator of loss.py): per-anchor assigned labels, boxes and quality
metrics. -/
structure AssignResult where
  assigned_labels : List ℤ
  assigned_bboxes : List Box
  assign_metrics : List ℚ
deriving DecidableEq, Inhabited

/-- A per-image ground-truth target dict: `labels : [N]`, `boxes : [N, 4]`. -/
structure Target where
  labels : List ℤ
  boxes : List Box
deriving DecidableEq, Inhabited

/-- The matcher interface
`(stride, anchors, pred_cls, pred_box, gt_labels, gt_bboxes) ↦ assignment`.
`AlignedSimOTA` itself lives in matcher.py (not among the sources), so a
matcher is kept abstract: any function of this shape. -/
def Matcher : Type :=
  ℚ → List Pt → List (List ℚ) → List Box → List ℤ → List Box → AssignResult

/-- The per-branch prediction bundle read by `Criterion.compute_loss`:
keys `pred_cls` (`[B, M, C]`), `pred_reg` (`[B, M, 4]`), `pred_box`
(`[B, M, 4]`), `anchors` (`[M, 2]`), `stride`, `stride_tensors` (`[M, 1]`). -/
structure BranchOutputs where
  pred_cls : List (List (List ℚ))
  pred_reg : List (List Vec4)
  pred_box : List (List Box)
  anchors : List Pt
  stride : ℚ
  stride_tensors : List ℚ
deriving Inhabited

/-- The full output dict received by `Criterion.__call__`: the main-branch
fields together with the nested `outputs['aux_outputs']` bundle. -/
structure TopOutputs where
  main : BranchOutputs
  aux_outputs : BranchOutputs
deriving Inhabited

/-- The state of a `Criterion` object after `__init__` (loss.py lines 10-33):
the fields actually read by `compute_loss` / `__call__`. `matcher` is built
from `cfg['matcher_hpy']['main']`, `aux_matcher` from
`cfg['matcher_hpy']['aux']`. -/
structure Criterion where
  num_classes : ℕ
  max_epoch : ℤ
  no_aug_epoch : ℤ
  loss_cls_weight : ℚ
  loss_box_weight : ℚ
  matcher : Matcher
  aux_matcher : Matcher

/-- Modelled from the spec: the distributed environment behind
`is_dist_avail_and_initialized`, `get_world_size`
(`utils/distributed_utils.py`, not among the sources) and
`torch.distributed.all_reduce`.  `other_mass` holds the foreground masses
contributed by the other processes of the group. -/
structure DistEnv where
  avail : Bool
  world_size : ℕ
  other_mass : List ℚ

/-- Modelled from the spec: `get_world_size()` returns the process-group
size when distributed training is initialized, else 1. -/
def getWorldSize (dist : DistEnv) : ℕ :=
  if dist.avail then dist.world_size else 1

/-- Modelled from the spec: `torch.distributed.all_reduce` sums a scalar
across all processes; outside a distributed run it is not called and the
local value is kept (loss.py lines 150-151). -/
def allReduced (dist : DistEnv) (local_mass : ℚ) : ℚ :=
  if dist.avail then local_mass + dist.other_mass.sum else local_mass

/-- The foreground normalization constant of `compute_loss`
(loss.py lines 148-152):
`num_fgs = (all_reduce(metrics.sum()) / world_size).clamp(1.0)`;
`clamp(1.0)` with a single positional argument is a lower clamp. -/
def numFgs (dist : DistEnv) (assign_metrics : List ℚ) : ℚ :=
  max (allReduced dist assign_metrics.sum / (getWorldSize dist : ℚ)) 1

/-- The foreground index set
`pos_inds = ((t >= 0) & (t < bg_class_ind)).nonzero().squeeze(1)`
(loss.py line 147): the ascending indices whose label lies in
`[0, num_classes)`. -/
def posInds (num_classes : ℕ) : List ℤ → List ℕ
  | [] => []
  | l :: ls =>
      (if 0 ≤ l ∧ l < (num_classes : ℤ) then [0] else []) ++
        (posInds num_classes ls).map (· + 1)

/-- Fancy-indexing `t[pos_inds]`: read the list at each index. -/
def selectIdx {α : Type} [Inhabited α] (l : List α) (idx : List ℕ) : List α :=
  idx.map (fun i => l.getD i default)

/-- A Python dict of scalar losses, as an insertion-ordered association
list. -/
abbrev LossDict : Type := List (String × ℚ)

/-- Dict read `d[k]` (all reads in the source are of present keys). -/
def dget (d : LossDict) (k : String) : ℚ :=
  ((d.find? (fun kv => kv.1 = k)).map Prod.snd).getD 0

/-- Dict key-membership `k in d`. -/
def hasKeyB (d : LossDict) (k : String) : Bool :=
  d.any (fun kv => kv.1 == k)

/-- The label-assignment loop of `compute_loss` (loss.py lines 113-143):
per image, run the main matcher when `aux_loss` is falsy and the aux
matcher otherwise, then concatenate the per-image results along the anchor
axis.  `aux_loss : ℕ` models the Python argument in that slot, whose
default `False` is falsy (`0`) and into which `__call__` passes an `int`;
`if not aux_loss` is integer truthiness. -/
def assignStage (self : Criterion) (outputs : BranchOutputs)
    (targets : List Target) (aux_loss : ℕ) : List ℤ × List Box × List ℚ :=
  let bs := outputs.pred_cls.length
  let results := (List.range bs).map (fun batch_idx =>
    let tgt := targets.getD batch_idx default
    let m := if aux_loss = 0 then self.matcher else self.aux_matcher
    m outputs.stride outputs.anchors (outputs.pred_cls.getD batch_idx [])
      (outputs.pred_box.getD batch_idx []) tgt.labels tgt.boxes)
  ((results.map AssignResult.assigned_labels).flatten,
   (results.map AssignResult.assigned_bboxes).flatten,
   (results.map AssignResult.assign_metrics).flatten)

/-- The classification-loss section of `compute_loss`
(loss.py lines 154-157). -/
def lossClsStage (rexp rlog : ℚ → ℚ) (cls_preds_flat : List (List ℚ))
    (cls_targets : List ℤ) (assign_metrics : List ℚ) (nf : ℚ) : ℚ :=
  ((lossClasses rexp rlog 2 cls_preds_flat cls_targets assign_metrics).map
    List.sum).sum / nf

/-- The box-regression section of `compute_loss` (loss.py lines 159-163):
select the foreground rows of the flattened predictions and targets and
average `loss_bboxes` over the normalization constant. -/
def lossBoxStage (num_classes : ℕ) (cls_targets : List ℤ)
    (box_preds_flat box_targets : List Box) (nf : ℚ) : ℚ :=
  let pos_inds := posInds num_classes cls_targets
  (lossBboxes (selectIdx box_preds_flat pos_inds)
    (selectIdx box_targets pos_inds)).sum / nf

/-- The auxiliary-regression section of `compute_loss`
(loss.py lines 172-183). -/
def lossBoxAuxStage (rlog : ℚ → ℚ) (num_classes : ℕ) (cls_targets : List ℤ)
    (outputs : BranchOutputs) (box_targets : List Box) (nf : ℚ) : ℚ :=
  let bs := outputs.pred_cls.length
  let pos_inds := posInds num_classes cls_targets
  let reg_preds_pos := selectIdx outputs.pred_reg.flatten pos_inds
  let anchors_pos := selectIdx (List.replicate bs outputs.anchors).flatten pos_inds
  let strides_pos :=
    selectIdx (List.replicate bs outputs.stride_tensors).flatten pos_inds
  ((lossBboxesAux rlog reg_preds_pos (selectIdx box_targets pos_inds)
      anchors_pos strides_pos).map Vec4.total).sum / nf

/-- `Criterion.compute_loss` (loss.py lines 83-202).  Signature order as in
the Python source: `(outputs, targets, aux_loss=False, epoch=0)`. -/
def computeLoss (rexp rlog : ℚ → ℚ) (dist : DistEnv) (self : Criterion)
    (outputs : BranchOutputs) (targets : List Target)
    (aux_loss : ℕ) (epoch : ℤ) : LossDict :=
  let asg := assignStage self outputs targets aux_loss
  let cls_targets := asg.1
  let box_targets := asg.2.1
  let assign_metrics := asg.2.2
  let nf := numFgs dist assign_metrics
  let loss_cls :=
    lossClsStage rexp rlog outputs.pred_cls.flatten cls_targets assign_metrics nf
  let loss_box :=
    lossBoxStage self.num_classes cls_targets outputs.pred_box.flatten
      box_targets nf
  let losses := self.loss_cls_weight * loss_cls + self.loss_box_weight * loss_box
  if epoch ≥ self.max_epoch - self.no_aug_epoch - 1 then
    let loss_box_aux :=
      lossBoxAuxStage rlog self.num_classes cls_targets outputs box_targets nf
    [("loss_cls", loss_cls), ("loss_box", loss_box),
     ("loss_box_aux", loss_box_aux), ("losses", losses + loss_box_aux)]
  else
    [("loss_cls", loss_cls), ("loss_box", loss_box), ("losses", losses)]

/-- Python dict assignment `d[k] = v` on an insertion-ordered association
list: an existing key keeps its position and gets the new value, a new key
is appended at the end. -/
def dset (d : LossDict) (k : String) (v : ℚ) : LossDict :=
  if d.any (fun kv => kv.1 == k) then
    d.map (fun kv => if kv.1 == k then (k, v) else kv)
  else d ++ [(k, v)]

/-- The dict-reformatting section of `Criterion.__call__`
(loss.py lines 211-219): start from an empty dict, assign `losses` as the
sum of both branch totals, then assign every non-`losses` main-branch key
under its own name and every non-`losses` auxiliary-branch key with an
`_aux` suffix.  Each step is Python dict assignment, so a suffixed
auxiliary key that collides with an already-inserted main-branch key
overwrites that entry in place. -/
def mergeLossDicts (main_loss_dict aux_loss_dict : LossDict) : LossDict :=
  let d0 := dset [] "losses"
    (dget main_loss_dict "losses" + dget aux_loss_dict "losses")
  let d1 := (main_loss_dict.filter (fun kv => kv.1 ≠ "losses")).foldl
    (fun d kv => dset d kv.1 kv.2) d0
  (aux_loss_dict.filter (fun kv => kv.1 ≠ "losses")).foldl
    (fun d kv => dset d (kv.1 ++ "_aux") kv.2) d1

/-- `Criterion.__call__` (loss.py lines 204-221).  Both inner calls are
`self.compute_loss(bundle, targets, epoch)`: the third positional argument
lands in the `aux_loss` slot and the `epoch` parameter keeps its default
`0`. -/
def callCriterion (rexp rlog : ℚ → ℚ) (dist : DistEnv) (self : Criterion)
    (outputs : TopOutputs) (targets : List Target) (epoch : ℕ) : LossDict :=
  mergeLossDicts (computeLoss rexp rlog dist self outputs.main targets epoch 0)
    (computeLoss rexp rlog dist self outputs.aux_outputs targets epoch 0)

end CtrNet

namespace CtrNet.Fix

/-! Concrete fixtures for the closed (witness / divergence) theorems:
one image, one anchor, one class.  The two matchers are distinguishable:
the main matcher assigns the anchor to class 0 with quality metric 4, the
aux matcher assigns label 1 (background, since `num_classes = 1`) with
metric 1. -/

/-- A concrete main matcher: anchor 0 is foreground (label 0, metric 4). -/
def matcherMain : Matcher := fun _ _ _ _ _ _ => ⟨[0], [⟨0, 0, 2, 2⟩], [4]⟩

/-- A concrete aux matcher: anchor 0 gets label 1 (background here). -/
def matcherAux : Matcher := fun _ _ _ _ _ _ => ⟨[1], [⟨0, 0, 2, 2⟩], [1]⟩

/-- A concrete criterion: 1 class, `max_epoch = 10`, `no_aug_epoch = 2`,
so the auxiliary-loss threshold `max_epoch - no_aug_epoch - 1` is 7. -/
def crit : Criterion :=
  { num_classes := 1, max_epoch := 10, no_aug_epoch := 2,
    loss_cls_weight := 1, loss_box_weight := 2,
    matcher := matcherMain, aux_matcher := matcherAux }

/-- One image, one anchor, one class. -/
def outs : BranchOutputs :=
  { pred_cls := [[[3]]], pred_reg := [[⟨0, 0, 0, 0⟩]],
    pred_box := [[⟨0, 0, 2, 2⟩]], anchors := [⟨1, 1⟩],
    stride := 8, stride_tensors := [8] }

/-- A top-level output bundle whose aux branch repeats the main bundle. -/
def tops : TopOutputs := ⟨outs, outs⟩

/-- One ground-truth object of class 0. -/
def tgts : List Target := [⟨[0], [⟨0, 0, 2, 2⟩]⟩]

/-- A non-distributed environment. -/
def nodist : DistEnv := ⟨false, 7, [5, 5]⟩

/-- A concrete stand-in for `exp` (any function works for the claims). -/
def rex : ℚ → ℚ := fun _ => 1

/-- A concrete stand-in for `log`. -/
def rlg : ℚ → ℚ := fun _ => 1

end CtrNet.Fix

namespace E2EYolo

/-- Number of parameters of `build_criterion(args, cfg, device, num_classes)`
(loss.py lines 224-227), all positional, none with a default. -/
def buildCriterionRequiredArgs : ℕ := 4

/-- Python call-arity semantics: a call supplying fewer positional arguments
than the callee's required parameters raises `TypeError` before the body
runs. -/
def pyCall (required given : ℕ) : Except String Unit :=
  if given = required then Except.ok ()
  else Except.error "TypeError: missing required positional argument"

/-- `build_e2eyolo` (build.py lines 12-61), abstracted over the model value
(network construction and weight initialization are external collaborators
and cannot raise for well-formed configs).  When `trainable` is set the
function evaluates `build_criterion(cfg, device, num_classes)` — three
positional arguments against a four-parameter signature. -/
def buildE2eyolo {Model CriterionT : Type} (model : Model)
    (criterion_of : Unit → CriterionT) (trainable : Bool) :
    Except String (Model × Option CriterionT) :=
  if trainable then
    match pyCall buildCriterionRequiredArgs 3 with
    | Except.ok _ => Except.ok (model, some (criterion_of ()))
    | Except.error e => Except.error e
  else Except.ok (model, none)

end E2EYolo

open CtrNet

/-- Claim C10: for every invocation of `build_e2eyolo` with `trainable=True`, the
criterion-construction step calls `build_criterion` with three arguments
although it requires four, so building the detector in trainable mode always
raises an uncaught `TypeError` and never returns a `(model, criterion)`
pair. -/
theorem claim_C10 {Model CriterionT : Type} (model : Model)
    (criterion_of : Unit → CriterionT) :
    E2EYolo.buildE2eyolo model criterion_of true =
      Except.error "TypeError: missing required positional argument" ∧
    ∀ p : Model × Option CriterionT,
      E2EYolo.buildE2eyolo model criterion_of true ≠ Except.ok p := by
  constructor
  · rfl
  · intro p h
    simp [E2EYolo.buildE2eyolo, E2EYolo.pyCall,
      E2EYolo.buildCriterionRequiredArgs] at h

/-- Claim C4: the foreground normalization constant of `compute_loss` equals
`max(1, S / W)` where `S` is the all-reduced (when distributed, else local)
sum of the per-anchor assignment quality metrics and `W` is the world size;
in particular it is never below 1. -/
theorem claim_C4 (dist : DistEnv) (metrics : List ℚ) :
    numFgs dist metrics =
      max 1 ((if dist.avail then metrics.sum + dist.other_mass.sum
              else metrics.sum) /
        (((if dist.avail then dist.world_size else 1) : ℕ) : ℚ)) ∧
    1 ≤ numFgs dist metrics := by
  constructor
  · simp only [numFgs, allReduced, getWorldSize]
    exact max_comm _ _
  · exact le_max_right _ _

/-- Concrete evaluation: on the fixture, the main-branch `loss_cls` that
`__call__` returns at epoch 1 (aux matcher ran: label 1, background). -/
lemma fix_loss_cls_epoch1 :
    dget (callCriterion Fix.rex Fix.rlg Fix.nodist Fix.crit Fix.tops Fix.tgts 1)
      "loss_cls" = -1/4 := by
  simp [callCriterion, computeLoss, assignStage, lossClsStage, lossBoxStage,
    lossBboxes, lossClasses, numFgs, allReduced, getWorldSize, posInds,
    selectIdx, dget, Fix.crit, Fix.outs, Fix.tops, Fix.tgts, Fix.nodist,
    Fix.rex, Fix.rlg, Fix.matcherMain, Fix.matcherAux, bceWithLogits, sigmoid,
    giou, interArea, unionArea, encloseArea, boxArea, lossBoxAuxStage,
    lossBboxesAux, encodeGtBox, Vec4.total, List.find?]
  norm_num

/-- Concrete evaluation: on the fixture, the main-branch `loss_cls` that
`__call__` returns at epoch 0 (main matcher ran: label 0, metric 4). -/
lemma fix_loss_cls_epoch0 :
    dget (callCriterion Fix.rex Fix.rlg Fix.nodist Fix.crit Fix.tops Fix.tgts 0)
      "loss_cls" = -49/16 := by
  simp [callCriterion, computeLoss, assignStage, lossClsStage, lossBoxStage,
    lossBboxes, lossClasses, numFgs, allReduced, getWorldSize, posInds,
    selectIdx, dget, Fix.crit, Fix.outs, Fix.tops, Fix.tgts, Fix.nodist,
    Fix.rex, Fix.rlg, Fix.matcherMain, Fix.matcherAux, bceWithLogits, sigmoid,
    giou, interArea, unionArea, encloseArea, boxArea, lossBoxAuxStage,
    lossBboxesAux, encodeGtBox, Vec4.total, List.find?]
  norm_num

/-- Claim C2 fails on the code: `__call__` passes `epoch` positionally into
`compute_loss`'s `aux_loss` slot, so WHICH matcher runs depends on the
truthiness of `epoch`, not on the branch.  On the fixture, the main-branch
assignment at epoch 1 is the aux matcher's (label 1), at epoch 0 the main
matcher's (label 0), and the returned main-branch `loss_cls` of
`__call__` changes between epoch 0 and epoch 1 although branch, predictions
and targets are all fixed. -/
theorem claim_C2_divergence :
    (assignStage Fix.crit Fix.outs Fix.tgts 1).1 = [1] ∧
    (assignStage Fix.crit Fix.outs Fix.tgts 0).1 = [0] ∧
    dget (callCriterion Fix.rex Fix.rlg Fix.nodist Fix.crit Fix.tops Fix.tgts 1)
        "loss_cls" ≠
      dget (callCriterion Fix.rex Fix.rlg Fix.nodist Fix.crit Fix.tops Fix.tgts 0)
        "loss_cls" := by
  refine ⟨by decide, by decide, ?_⟩
  rw [fix_loss_cls_epoch1, fix_loss_cls_epoch0]
  norm_num

/-- Claim C3 fails on the code in two ways.  First, `__call__` suffixes the aux
branch's `loss_box` key to `loss_box_aux`, so a key of that name is present
in the returned dictionary even at epoch 3, below the activation threshold
7 of the fixture.  Second, because `__call__` passes `epoch` into the
`aux_loss` slot, the inner `epoch` parameter keeps its default 0, so neither
inner `compute_loss` call ever produces the auxiliary encoded-box entry —
not at epoch 3 and not at epoch 9 (≥ threshold 7) either. -/
theorem claim_C3_divergence :
    hasKeyB (callCriterion Fix.rex Fix.rlg Fix.nodist Fix.crit Fix.tops Fix.tgts 3)
      "loss_box_aux" = true ∧
    hasKeyB (computeLoss Fix.rex Fix.rlg Fix.nodist Fix.crit Fix.outs Fix.tgts 3 0)
      "loss_box_aux" = false ∧
    hasKeyB (computeLoss Fix.rex Fix.rlg Fix.nodist Fix.crit Fix.outs Fix.tgts 9 0)
      "loss_box_aux" = false := by
  refine ⟨by decide, by decide, by decide⟩


/-- Claim C6: the matrix returned by `loss_classes` has, at every
(anchor, class) position, the zero-target BCE-with-logits loss scaled by
`sigmoid(pred)^beta`, except that a foreground anchor (label in
`[0, num_classes)`) gets, at exactly its label channel, the BCE-with-logits
loss against its quality score scaled by `|score − sigmoid(pred)|^beta`. -/
theorem claim_C6 (rexp rlog : ℚ → ℚ) (beta : ℕ) (pred_cls : List (List ℚ))
    (label : List ℤ) (score : List ℚ) (C : ℕ) (i j : ℕ)
    (hC : ∀ row ∈ pred_cls, row.length = C)
    (hlab : label.length = pred_cls.length)
    (hsc : score.length = pred_cls.length)
    (hi : i < pred_cls.length) (hj : j < C) :
    ((lossClasses rexp rlog beta pred_cls label score).getD i []).getD j 0 =
      if 0 ≤ label.getD i 0 ∧ label.getD i 0 < (C : ℤ) ∧ (j : ℤ) = label.getD i 0
      then
        bceWithLogits rexp rlog ((pred_cls.getD i []).getD j 0) (score.getD i 0) *
          |score.getD i 0 - sigmoid rexp ((pred_cls.getD i []).getD j 0)| ^ beta
      else
        bceWithLogits rexp rlog ((pred_cls.getD i []).getD j 0) 0 *
          sigmoid rexp ((pred_cls.getD i []).getD j 0) ^ beta := by
  have h0 : 0 < pred_cls.length := Nat.lt_of_le_of_lt (Nat.zero_le i) hi
  have hne : pred_cls ≠ [] := List.ne_nil_of_length_pos h0
  have hil : i < label.length := by rw [hlab]; exact hi
  have his : i < score.length := by rw [hsc]; exact hi
  have hrowlen : (pred_cls[i]).length = C := hC _ (List.getElem_mem hi)
  have hjrow : j < (pred_cls[i]).length := by rw [hrowlen]; exact hj
  have hhead : ((pred_cls.headD []).length : ℤ) = (C : ℤ) := by
    obtain ⟨a, tl, h⟩ := List.exists_cons_of_ne_nil hne
    subst h
    have := hC a (List.mem_cons_self a tl)
    simp [this]
  have hz : (pred_cls.zip (label.zip score)).length = pred_cls.length := by
    simp [List.length_zip, hlab, hsc]
  have hiz : i < ((pred_cls.zip (label.zip score)).map (fun p =>
      let row := p.1
      let lab := p.2.1
      let sc := p.2.2
      let bgRow := row.map (fun x =>
        bceWithLogits rexp rlog x 0 * (sigmoid rexp x) ^ beta)
      if 0 ≤ lab ∧ lab < ((pred_cls.headD []).length : ℤ) then
        bgRow.set lab.toNat
          (bceWithLogits rexp rlog (row.getD lab.toNat 0) sc *
            |sc - sigmoid rexp (row.getD lab.toNat 0)| ^ beta)
      else bgRow)).length := by
    simpa [hz] using hi
  rw [List.getD_eq_getElem label 0 hil, List.getD_eq_getElem score 0 his,
    List.getD_eq_getElem pred_cls [] hi,
    List.getD_eq_getElem (pred_cls[i]) 0 hjrow]
  unfold lossClasses
  rw [List.getD_eq_getElem _ [] hiz, List.getElem_map, List.getElem_zip,
    List.getElem_zip]
  simp only [hhead]
  by_cases hfg : 0 ≤ label[i] ∧ label[i] < (C : ℤ)
  · simp only [hfg, if_true, and_true, true_and]
    by_cases hjlab : (j : ℤ) = label[i]
    · have hjn : label[i].toNat = j := by omega
      rw [hjn]
      rw [List.getD_eq_getElem _ 0 (by simpa [hrowlen] using hj)]
      rw [List.getElem_set_self]
      rw [List.getD_eq_getElem (pred_cls[i]) 0 hjrow]
      rw [if_pos hjlab]
    · have hjn : label[i].toNat ≠ j := by omega
      rw [List.getD_eq_getElem _ 0 (by simpa [hrowlen] using hj)]
      rw [List.getElem_set_ne hjn]
      rw [List.getElem_map]
      rw [if_neg hjlab]
  · simp only [hfg, if_false]
    rw [List.getD_eq_getElem _ 0 (by simpa [hrowlen] using hj)]
    rw [List.getElem_map]
    rw [if_neg (by tauto)]

/-- Claim C9: `loss_bboxes_aux` returns, per sample, the elementwise
absolute error between the raw regression prediction and the encoded
target: center `(gt_center − anchor)/stride` with
`gt_center = (gt_xyxy[:2] + gt_xyxy[2:])/2`, and size
`log(gt_size/stride)` with `gt_size = gt_xyxy[2:] − gt_xyxy[:2]`. -/
theorem claim_C9 (rlog : ℚ → ℚ) (pred_reg : List Vec4) (gt_box : List Box)
    (anchors : List Pt) (strides : List ℚ) (i : ℕ)
    (h1 : i < pred_reg.length) (h2 : i < gt_box.length)
    (h3 : i < anchors.length) (h4 : i < strides.length) :
    (lossBboxesAux rlog pred_reg gt_box anchors strides).getD i default =
      ⟨|(pred_reg.getD i default).t1 -
          (((gt_box.getD i default).x1 + (gt_box.getD i default).x2) / 2 -
            (anchors.getD i default).x) / strides.getD i 0|,
       |(pred_reg.getD i default).t2 -
          (((gt_box.getD i default).y1 + (gt_box.getD i default).y2) / 2 -
            (anchors.getD i default).y) / strides.getD i 0|,
       |(pred_reg.getD i default).t3 -
          rlog (((gt_box.getD i default).x2 - (gt_box.getD i default).x1) /
            strides.getD i 0)|,
       |(pred_reg.getD i default).t4 -
          rlog (((gt_box.getD i default).y2 - (gt_box.getD i default).y1) /
            strides.getD i 0)|⟩ := by
  have hlen : i < (lossBboxesAux rlog pred_reg gt_box anchors strides).length := by
    simp [lossBboxesAux, List.length_map, List.length_zip]; omega
  rw [List.getD_eq_getElem pred_reg default h1,
    List.getD_eq_getElem gt_box default h2,
    List.getD_eq_getElem anchors default h3,
    List.getD_eq_getElem strides 0 h4,
    List.getD_eq_getElem _ default hlen]
  unfold lossBboxesAux
  rw [List.getElem_map, List.getElem_zip, List.getElem_zip, List.getElem_zip]
  simp only [encodeGtBox]
  ring_nf

/-- Shifting every index by one and dropping the head cell agree. -/
lemma selectIdx_cons_shift {α : Type} [Inhabited α] (x : α) (xs : List α)
    (idx : List ℕ) : selectIdx (x :: xs) (idx.map (· + 1)) = selectIdx xs idx := by
  simp [selectIdx, List.map_map, Function.comp_def, List.getD_cons_succ]

/-- GIoU of a non-degenerate box with itself is 1. -/
lemma giou_self (b : Box) (hx : b.x1 < b.x2) (hy : b.y1 < b.y2) :
    giou b b = 1 := by
  have hx' : (0 : ℚ) < b.x2 - b.x1 := by linarith
  have hy' : (0 : ℚ) < b.y2 - b.y1 := by linarith
  have hI : interArea b b = boxArea b := by
    simp only [interArea, boxArea, min_self, max_self]
    rw [max_eq_left hx'.le, max_eq_left hy'.le]
  have hU : unionArea b b = boxArea b := by
    simp only [unionArea, hI]; ring
  have hE : encloseArea b b = boxArea b := by
    simp only [encloseArea, boxArea, max_self, min_self]
  have hA0 : boxArea b ≠ 0 := ne_of_gt (mul_pos hx' hy')
  rw [giou, hI, hU, hE, div_self hA0, sub_self, zero_div, sub_zero]

/-- The sum of `1 − GIoU` over the foreground-selected rows equals the sum
over all rows of the foreground-masked per-row loss. -/
lemma lossBox_masked_sum (C : ℕ) : ∀ (ls : List ℤ) (bp bt : List Box),
    bp.length = ls.length → bt.length = ls.length →
    (lossBboxes (selectIdx bp (posInds C ls)) (selectIdx bt (posInds C ls))).sum =
      ((ls.zip (bp.zip bt)).map (fun p =>
        if 0 ≤ p.1 ∧ p.1 < (C : ℤ) then 1 - giou p.2.1 p.2.2 else 0)).sum := by
  intro ls
  induction ls with
  | nil =>
    intro bp bt h1 h2
    simp [posInds, selectIdx, lossBboxes]
  | cons l ls ih =>
    intro bp bt h1 h2
    cases bp with
    | nil => simp at h1
    | cons b bp' =>
      cases bt with
      | nil => simp at h2
      | cons c bt' =>
        have h1' : bp'.length = ls.length := by simpa using h1
        have h2' : bt'.length = ls.length := by simpa using h2
        simp only [posInds]
        by_cases hl : 0 ≤ l ∧ l < (C : ℤ)
        · rw [if_pos hl]
          simp only [List.singleton_append]
          have hsel : ∀ (y : Box) (ys : List Box),
              selectIdx (y :: ys) (0 :: (posInds C ls).map (· + 1)) =
                y :: selectIdx ys (posInds C ls) := by
            intro y ys
            simp [selectIdx, List.map_map, Function.comp_def, List.getD_cons_succ]
          rw [hsel, hsel]
          simp only [lossBboxes, List.zip_cons_cons, List.map_cons, List.sum_cons]
          rw [if_pos hl]
          have := ih bp' bt' h1' h2'
          simp only [lossBboxes] at this
          rw [this]
        · rw [if_neg hl]
          simp only [List.nil_append]
          rw [selectIdx_cons_shift, selectIdx_cons_shift]
          rw [ih bp' bt' h1' h2']
          simp only [List.zip_cons_cons, List.map_cons, List.sum_cons]
          rw [if_neg hl, zero_add]

/-- Claim C7: `loss_bboxes` returns exactly `1 − GIoU(pred, gt)` per pair;
identical (valid) boxes give loss 0; and the regression stage of
`compute_loss` applies it only to anchors whose assigned label lies in
`[0, num_classes)`, so background anchors contribute zero box loss. -/
theorem claim_C7 :
    (∀ (pred_box gt_box : List Box) (i : ℕ), i < pred_box.length →
      i < gt_box.length →
      (lossBboxes pred_box gt_box).getD i 0 =
        1 - giou (pred_box.getD i default) (gt_box.getD i default)) ∧
    (∀ b : Box, b.x1 < b.x2 → b.y1 < b.y2 → lossBboxes [b] [b] = [0]) ∧
    (∀ (C : ℕ) (cls_targets : List ℤ) (bp bt : List Box) (nf : ℚ),
      bp.length = cls_targets.length → bt.length = cls_targets.length →
      lossBoxStage C cls_targets bp bt nf =
        ((cls_targets.zip (bp.zip bt)).map (fun p =>
          if 0 ≤ p.1 ∧ p.1 < (C : ℤ) then 1 - giou p.2.1 p.2.2 else 0)).sum / nf) := by
  refine ⟨?_, ?_, ?_⟩
  · intro pred_box gt_box i h1 h2
    have hz : i < (pred_box.zip gt_box).length := by
      simp [List.length_zip]; omega
    have hlen : i < (lossBboxes pred_box gt_box).length := by
      simp [lossBboxes, List.length_zip]; omega
    rw [List.getD_eq_getElem pred_box default h1,
      List.getD_eq_getElem gt_box default h2,
      List.getD_eq_getElem _ 0 hlen]
    unfold lossBboxes
    rw [List.getElem_map, List.getElem_zip]
  · intro b hx hy
    simp [lossBboxes, giou_self b hx hy]
  · intro C cls_targets bp bt nf h1 h2
    show (lossBboxes (selectIdx bp (posInds C cls_targets))
      (selectIdx bt (posInds C cls_targets))).sum / nf = _
    rw [lossBox_masked_sum C cls_targets bp bt h1 h2]

/-- Claim C8: the `losses` entry returned by `compute_loss` equals
`loss_cls_weight · loss_cls + loss_box_weight · loss_box`, with
`loss_box_aux` added directly (unweighted) exactly when the auxiliary loss
is active. -/
theorem claim_C8 (rexp rlog : ℚ → ℚ) (dist : DistEnv) (self : Criterion)
    (outputs : BranchOutputs) (targets : List Target) (aux_loss : ℕ)
    (epoch : ℤ) :
    dget (computeLoss rexp rlog dist self outputs targets aux_loss epoch)
        "losses" =
      self.loss_cls_weight *
        dget (computeLoss rexp rlog dist self outputs targets aux_loss epoch)
          "loss_cls" +
      self.loss_box_weight *
        dget (computeLoss rexp rlog dist self outputs targets aux_loss epoch)
          "loss_box" +
      (if epoch ≥ self.max_epoch - self.no_aug_epoch - 1 then
        dget (computeLoss rexp rlog dist self outputs targets aux_loss epoch)
          "loss_box_aux"
      else 0) := by
  by_cases h : epoch ≥ self.max_epoch - self.no_aug_epoch - 1 <;>
    simp [computeLoss, h, dget, List.find?]

/-- Two `compute_loss` results with the same criterion and inner epoch have
the same shape: both 3-entry dicts (aux loss off) or both 4-entry dicts
(aux loss on), with `loss_cls` first and `losses` last. -/
lemma computeLoss_pair_shape (rexp rlog : ℚ → ℚ) (dist : DistEnv)
    (self : Criterion) (o1 o2 : BranchOutputs) (targets : List Target)
    (a1 a2 : ℕ) (ep : ℤ) :
    (∃ v1 v2 v3 w1 w2 w3,
      computeLoss rexp rlog dist self o1 targets a1 ep =
        [("loss_cls", v1), ("loss_box", v2), ("losses", v3)] ∧
      computeLoss rexp rlog dist self o2 targets a2 ep =
        [("loss_cls", w1), ("loss_box", w2), ("losses", w3)]) ∨
    (∃ v1 v2 v3 v4 w1 w2 w3 w4,
      computeLoss rexp rlog dist self o1 targets a1 ep =
        [("loss_cls", v1), ("loss_box", v2), ("loss_box_aux", v3),
         ("losses", v4)] ∧
      computeLoss rexp rlog dist self o2 targets a2 ep =
        [("loss_cls", w1), ("loss_box", w2), ("loss_box_aux", w3),
         ("losses", w4)]) := by
  unfold computeLoss
  by_cases h : ep ≥ self.max_epoch - self.no_aug_epoch - 1
  · rw [if_pos h, if_pos h]
    exact Or.inr ⟨_, _, _, _, _, _, _, _, rfl, rfl⟩
  · rw [if_neg h, if_neg h]
    exact Or.inl ⟨_, _, _, _, _, _, rfl, rfl⟩

/-- Evaluation of the merge on two 3-entry dicts: no key collision, the
suffixed auxiliary entries are appended. -/
lemma mergeLossDicts_eval3 (m1 m2 m3 w1 w2 w3 : ℚ) :
    mergeLossDicts [("loss_cls", m1), ("loss_box", m2), ("losses", m3)]
        [("loss_cls", w1), ("loss_box", w2), ("losses", w3)] =
      [("losses", m3 + w3), ("loss_cls", m1), ("loss_box", m2),
       ("loss_cls_aux", w1), ("loss_box_aux", w2)] := by
  rfl

/-- Evaluation of the merge on two 4-entry dicts: the suffixed auxiliary
`loss_box` key collides with the main-branch `loss_box_aux` key and
overwrites that entry in place, as Python dict assignment does. -/
lemma mergeLossDicts_eval4 (m1 m2 m3 m4 w1 w2 w3 w4 : ℚ) :
    mergeLossDicts [("loss_cls", m1), ("loss_box", m2), ("loss_box_aux", m3),
        ("losses", m4)]
        [("loss_cls", w1), ("loss_box", w2), ("loss_box_aux", w3),
        ("losses", w4)] =
      [("losses", m4 + w4), ("loss_cls", m1), ("loss_box", m2),
       ("loss_box_aux", w2), ("loss_cls_aux", w1), ("loss_box_aux_aux", w3)] := by
  rfl

/-- Claim C1: the `losses` entry returned by `__call__` is exactly the sum
of the main-branch and auxiliary-branch `compute_loss` `losses`; every
non-`losses` key of the auxiliary-branch dictionary appears in the result
with an `_aux` suffix, mapped to its auxiliary-branch value; and every
non-`losses` key of the main-branch dictionary appears under its original
unsuffixed name. -/
theorem claim_C1 (rexp rlog : ℚ → ℚ) (dist : DistEnv) (self : Criterion)
    (outputs : TopOutputs) (targets : List Target) (epoch : ℕ) :
    dget (callCriterion rexp rlog dist self outputs targets epoch) "losses" =
      dget (computeLoss rexp rlog dist self outputs.main targets epoch 0)
        "losses" +
      dget (computeLoss rexp rlog dist self outputs.aux_outputs targets epoch 0)
        "losses" ∧
    (∀ kv ∈ computeLoss rexp rlog dist self outputs.aux_outputs targets epoch 0,
      kv.1 ≠ "losses" →
      hasKeyB (callCriterion rexp rlog dist self outputs targets epoch)
        (kv.1 ++ "_aux") = true ∧
      dget (callCriterion rexp rlog dist self outputs targets epoch)
        (kv.1 ++ "_aux") = kv.2) ∧
    (∀ kv ∈ computeLoss rexp rlog dist self outputs.main targets epoch 0,
      kv.1 ≠ "losses" →
      hasKeyB (callCriterion rexp rlog dist self outputs targets epoch)
        kv.1 = true) := by
  unfold callCriterion
  obtain ⟨v1, v2, v3, w1, w2, w3, hm, ha⟩ | ⟨v1, v2, v3, v4, w1, w2, w3, w4, hm, ha⟩ :=
    computeLoss_pair_shape rexp rlog dist self outputs.main outputs.aux_outputs
      targets epoch epoch 0
  · rw [hm, ha, mergeLossDicts_eval3]
    refine ⟨by simp [dget, List.find?], ?_, ?_⟩
    · intro kv hkv hne
      simp only [List.mem_cons, List.not_mem_nil, or_false] at hkv
      rcases hkv with rfl | rfl | rfl
      · exact ⟨rfl, rfl⟩
      · exact ⟨rfl, rfl⟩
      · simp at hne
    · intro kv hkv hne
      simp only [List.mem_cons, List.not_mem_nil, or_false] at hkv
      rcases hkv with rfl | rfl | rfl
      · rfl
      · rfl
      · simp at hne
  · rw [hm, ha, mergeLossDicts_eval4]
    refine ⟨by simp [dget, List.find?], ?_, ?_⟩
    · intro kv hkv hne
      simp only [List.mem_cons, List.not_mem_nil, or_false] at hkv
      rcases hkv with rfl | rfl | rfl | rfl
      · exact ⟨rfl, rfl⟩
      · exact ⟨rfl, rfl⟩
      · exact ⟨rfl, rfl⟩
      · simp at hne
    · intro kv hkv hne
      simp only [List.mem_cons, List.not_mem_nil, or_false] at hkv
      rcases hkv with rfl | rfl | rfl | rfl
      · rfl
      · rfl
      · rfl
      · simp at hne

/-- Concrete evaluation of `compute_loss` on the fixture (main matcher,
aux loss off). -/
lemma fix_computeLoss_main0 :
    computeLoss Fix.rex Fix.rlg Fix.nodist Fix.crit Fix.outs Fix.tgts 0 0 =
      [("loss_cls", -49/16), ("loss_box", 0), ("losses", -49/16)] := by
  simp [computeLoss, assignStage, lossClsStage, lossBoxStage, lossBboxes,
    lossClasses, numFgs, allReduced, getWorldSize, posInds, selectIdx,
    Fix.crit, Fix.outs, Fix.tgts, Fix.nodist, Fix.rex, Fix.rlg,
    Fix.matcherMain, Fix.matcherAux, bceWithLogits, sigmoid, giou, interArea,
    unionArea, encloseArea, boxArea, lossBoxAuxStage, lossBboxesAux,
    encodeGtBox, Vec4.total]
  norm_num

/-- Claim C5 as amended: `loss_cls` equals the sum of all elements of the
`loss_classes` matrix divided by the foreground-mass normalization constant
`num_fgs` (the distributed-averaged sum of the assignment quality metrics,
floored at 1.0) — not by the foreground-sample count; `loss_classes` itself
performs no reduction (it returns a full matrix of the input's shape). -/
theorem claim_C5_amended (rexp rlog : ℚ → ℚ) (dist : DistEnv) (self : Criterion)
    (outputs : BranchOutputs) (targets : List Target) (aux_loss : ℕ)
    (epoch : ℤ) (pred : List (List ℚ)) (label : List ℤ) (score : List ℚ)
    (hp : label.length = pred.length) (hs : score.length = pred.length) :
    dget (computeLoss rexp rlog dist self outputs targets aux_loss epoch)
        "loss_cls" =
      ((lossClasses rexp rlog 2 outputs.pred_cls.flatten
          (assignStage self outputs targets aux_loss).1
          (assignStage self outputs targets aux_loss).2.2).map List.sum).sum /
        numFgs dist (assignStage self outputs targets aux_loss).2.2 ∧
    (lossClasses rexp rlog 2 pred label score).length = pred.length ∧
    (∀ i : ℕ, i < pred.length →
      ((lossClasses rexp rlog 2 pred label score).getD i []).length =
        (pred.getD i []).length) := by
  refine ⟨?_, ?_, ?_⟩
  · by_cases h : epoch ≥ self.max_epoch - self.no_aug_epoch - 1 <;>
      simp [computeLoss, lossClsStage, h, dget, List.find?]
  · simp [lossClasses, List.length_zip, hp, hs]
  · intro i hipred
    have hlen : (lossClasses rexp rlog 2 pred label score).length =
        pred.length := by
      simp [lossClasses, List.length_zip, hp, hs]
    have hiz : i < (lossClasses rexp rlog 2 pred label score).length := by
      rw [hlen]; exact hipred
    rw [List.getD_eq_getElem _ [] hiz, List.getD_eq_getElem pred [] hipred]
    unfold lossClasses
    rw [List.getElem_map, List.getElem_zip, List.getElem_zip]
    dsimp only
    split <;> simp [List.length_set, List.length_map]

/-- Claim C5 as stated is false: on the fixture the single foreground
anchor carries quality metric 4, so the divisor is the mass 4, while the
foreground-sample count (floored at 1) is 1; `loss_cls` is `-49/16`, not
the claimed `-49/4`. -/
theorem claim_C5_counterexample :
    dget (computeLoss Fix.rex Fix.rlg Fix.nodist Fix.crit Fix.outs Fix.tgts 0 0)
        "loss_cls" ≠
      ((lossClasses Fix.rex Fix.rlg 2 Fix.outs.pred_cls.flatten
          (assignStage Fix.crit Fix.outs Fix.tgts 0).1
          (assignStage Fix.crit Fix.outs Fix.tgts 0).2.2).map List.sum).sum /
        (max 1 (((posInds Fix.crit.num_classes
          (assignStage Fix.crit Fix.outs Fix.tgts 0).1).length : ℚ))) := by
  have h1 : dget (computeLoss Fix.rex Fix.rlg Fix.nodist Fix.crit Fix.outs
      Fix.tgts 0 0) "loss_cls" = -49/16 := by
    rw [fix_computeLoss_main0]
    norm_num [dget, List.find?]
  have h2 : ((lossClasses Fix.rex Fix.rlg 2 Fix.outs.pred_cls.flatten
          (assignStage Fix.crit Fix.outs Fix.tgts 0).1
          (assignStage Fix.crit Fix.outs Fix.tgts 0).2.2).map List.sum).sum /
        (max 1 (((posInds Fix.crit.num_classes
          (assignStage Fix.crit Fix.outs Fix.tgts 0).1).length : ℚ))) =
      -49/4 := by
    simp [assignStage, lossClasses, posInds, Fix.crit, Fix.outs, Fix.tgts,
      Fix.rex, Fix.rlg, Fix.matcherMain, bceWithLogits, sigmoid]
    norm_num
  rw [h1, h2]
  norm_num

/-- Witness for C6 at a concrete input (one row `[2, 3]`, label 1,
score 1/2, the label channel). -/
theorem claim_C6_witness :
    (∀ row ∈ [[(2:ℚ), 3]], row.length = 2) ∧
    ((lossClasses Fix.rex Fix.rlg 2 [[(2:ℚ), 3]] [1] [1/2]).getD 0 []).getD 1 0 =
      (if 0 ≤ [(1:ℤ)].getD 0 0 ∧ [(1:ℤ)].getD 0 0 < ((2:ℕ) : ℤ) ∧
          ((1:ℕ) : ℤ) = [(1:ℤ)].getD 0 0 then
        bceWithLogits Fix.rex Fix.rlg (([[(2:ℚ), 3]].getD 0 []).getD 1 0)
            ([(1/2 : ℚ)].getD 0 0) *
          |[(1/2 : ℚ)].getD 0 0 -
            sigmoid Fix.rex (([[(2:ℚ), 3]].getD 0 []).getD 1 0)| ^ 2
      else
        bceWithLogits Fix.rex Fix.rlg (([[(2:ℚ), 3]].getD 0 []).getD 1 0) 0 *
          sigmoid Fix.rex (([[(2:ℚ), 3]].getD 0 []).getD 1 0) ^ 2) :=
  ⟨by decide,
   claim_C6 Fix.rex Fix.rlg 2 [[2, 3]] [1] [1/2] 2 0 1 (by decide) (by decide)
     (by decide) (by decide) (by decide)⟩

/-- Witness for C9 at a concrete input (one sample, stride 2). -/
theorem claim_C9_witness :
    (0:ℕ) < ([⟨(1:ℚ), 2, 3, 4⟩] : List Vec4).length ∧
    (lossBboxesAux Fix.rlg [⟨1, 2, 3, 4⟩] [⟨0, 0, 2, 2⟩] [⟨1, 1⟩] [2]).getD 0
        default =
      ⟨|(1:ℚ) - ((0 + 2) / 2 - 1) / 2|, |(2:ℚ) - ((0 + 2) / 2 - 1) / 2|,
       |(3:ℚ) - Fix.rlg ((2 - 0) / 2)|, |(4:ℚ) - Fix.rlg ((2 - 0) / 2)|⟩ :=
  ⟨by decide,
   claim_C9 Fix.rlg [⟨1, 2, 3, 4⟩] [⟨0, 0, 2, 2⟩] [⟨1, 1⟩] [2] 0 (by decide)
     (by decide) (by decide) (by decide)⟩

/-- Witness for the amended C5 on the fixture. -/
theorem claim_C5_witness :
    ([(0:ℤ)].length = [[(1:ℚ)]].length) ∧
    dget (computeLoss Fix.rex Fix.rlg Fix.nodist Fix.crit Fix.outs Fix.tgts 0 0)
        "loss_cls" =
      ((lossClasses Fix.rex Fix.rlg 2 Fix.outs.pred_cls.flatten
          (assignStage Fix.crit Fix.outs Fix.tgts 0).1
          (assignStage Fix.crit Fix.outs Fix.tgts 0).2.2).map List.sum).sum /
        numFgs Fix.nodist (assignStage Fix.crit Fix.outs Fix.tgts 0).2.2 :=
  ⟨by decide,
   (claim_C5_amended Fix.rex Fix.rlg Fix.nodist Fix.crit Fix.outs Fix.tgts 0 0
     [[(1:ℚ)]] [0] [1] (by decide) (by decide)).1⟩
